import Mathlib

/-!
Verification of `pkg/oc/cli/projects/projects.go` (the `oc projects` command).

The embedding models the core of the file: `Validate`, the message-building
switch of `RunProjects`, the sort `SortByProjectName`, and the footer /
advisory / error-propagation logic. External capabilities that live in other
packages (`ocproject.ConfirmProjectAccess`, `ocproject.GetProjects`,
`clientcfg.GetContextNickname`, `kcmdutil.CheckErr`,
`projectapihelpers.DisplayNameAndNameForProject`) are passed in as parameters
or modelled from the spec, as noted at each definition.
-/

/-- A Go error value as this unit observes it: `Forbidden` records whether
`kapierrors.IsForbidden` holds of it, `Msg` its text. -/
structure GoError where
  Forbidden : Bool
  Msg : String
deriving DecidableEq, Repr

/-- Go's `kapierrors.IsForbidden` applied to a possibly-nil error:
`IsForbidden(nil)` is false. -/
def IsForbidden : Option GoError → Bool
  | none => false
  | some e => e.Forbidden

/-- A project as this unit consumes it: `Name` plus its annotation map
(`projectapi.Project`), the map being an association list looked up with
Go map semantics (missing key reads as `""`). -/
structure Project where
  Name : String
  Annotations : List (String × String)
deriving DecidableEq, Repr

/-- Go map read `m[key]` over an association list: the value stored at `key`,
or the empty string when the key is absent. -/
def lookupAnno (annos : List (String × String)) (key : String) : String :=
  match annos.find? (fun kv => kv.1 == key) with
  | some kv => kv.2
  | none => ""

/-- The constant `oapi.OpenShiftDisplayName` (pkg/api), the well-known
display-name annotation key. -/
def OpenShiftDisplayName : String := "openshift.io/display-name"

/-- The display-name resolution inlined at lines 176-179 of projects.go:
read the well-known key, and when that read is empty fall back to the
legacy key `"displayName"`. -/
def resolveDisplayName (p : Project) : String :=
  let displayName := lookupAnno p.Annotations OpenShiftDisplayName
  if displayName.isEmpty then lookupAnno p.Annotations "displayName" else displayName

/-- Modelled from the spec: `projectapihelpers.DisplayNameAndNameForProject`
(pkg/project/apis/project/helpers, not under src/) renders the combined
display representation of a project: the bare `Name` when the project has no
distinct display name, else `Name (DisplayName)`. -/
def DisplayNameAndNameForProject (p : Project) : String :=
  let displayName := resolveDisplayName p
  if !displayName.isEmpty && displayName != p.Name then
    p.Name ++ (" (" ++ (displayName ++ ")"))
  else
    p.Name

/-- Go `fmt` verb `%q` on a string: the text wrapped in double quotes, a
backslash or a double quote escaped with a backslash (the control-character
escape classes of `%q` are not exercised by any string of this development). -/
def goQuote (s : String) : String :=
  "\"" ++ String.join (s.data.map (fun c =>
    if c = '"' then "\\\"" else if c = '\\' then "\\\\" else String.singleton c)) ++ "\""

/-- A kubeconfig context (`clientcmdapi.Context`): the fields this unit
reads. -/
structure KubeContext where
  Namespace : String
  Cluster : String
  AuthInfo : String
deriving DecidableEq, Repr

/-- The kubeconfig (`clientcmdapi.Config`): the context table and the name of
the current context. -/
structure KubeConfig where
  Contexts : List (String × KubeContext)
  CurrentContext : String
deriving DecidableEq, Repr

/-- Go map read `config.Contexts[name]` over the context table: the stored
context, or nil when the name is absent. -/
def lookupCtx (ctxs : List (String × KubeContext)) (name : String) : Option KubeContext :=
  match ctxs.find? (fun kv => kv.1 == name) with
  | some kv => some kv.2
  | none => none

/-- Lines 130-134 of projects.go: the current project name is the namespace of
the current context, or the empty string when no current context exists. -/
def currentProjectOf (config : KubeConfig) : String :=
  match lookupCtx config.Contexts config.CurrentContext with
  | some c => c.Namespace
  | none => ""

/-- The fields of `ProjectsOptions` that `RunProjects` reads: the kubeconfig,
the server host (`o.ClientConfig.Host`), the command name and the
`--short` flag. -/
structure ProjectsOptions where
  Config : KubeConfig
  Host : String
  CommandName : String
  DisplayShort : Bool
deriving Repr

/-- Lexicographic strict order on character lists: Go's `<` on strings is
byte-wise lexicographic order of their UTF-8 encodings, which agrees with
lexicographic order of the code points. -/
def lexLt : List Char → List Char → Bool
  | _, [] => false
  | [], _ :: _ => true
  | a :: as, b :: bs => decide (a < b) || (a == b && lexLt as bs)

/-- Go's `s < t` on strings. -/
def goStringLt (s t : String) : Bool := lexLt s.data t.data

/-- Go's `s <= t` on strings. -/
def goStringLe (s t : String) : Bool := goStringLt s t || s == t

/-- The sort SortByProjectName (lines 50-61) as applied by `sort.Sort` at line 173:
a comparison sort of the project slice with `Less i j = (p[i].Name < p[j].Name)`.
`sort.Sort` does not promise stability, so it is modelled by insertion sort on
`Name`; whenever the names are unique every sort agreeing with `Less` produces
this same sequence. -/
def SortByProjectName (ps : List Project) : List Project :=
  List.insertionSort (fun a b => goStringLe a.Name b.Name = true) ps

/-- The per-project text appended in one iteration of the loop at lines
174-196: the line-break (suppressed for the first project in short mode), the
marker column, and `Name - DisplayName` or the bare `Name`. The loop variable
`asterisk` starts empty and is reassigned only when
`currentProjectExists && !o.DisplayShort`, a condition constant across
iterations, so its value in every iteration is the one computed here. -/
def projectChunk (short currentProjectExists : Bool) (currentProject : String)
    (count : Nat) (project : Project) : String :=
  let displayName := resolveDisplayName project
  let asterisk : String :=
    if currentProjectExists && !short then
      if currentProject == project.Name then "  * " else "    "
    else ""
  if !displayName.isEmpty && displayName != project.Name && !short then
    "\n" ++ (asterisk ++ (project.Name ++ (" - " ++ displayName)))
  else
    (if short && count == 1 then "" else "\n") ++ (asterisk ++ project.Name)

/-- The chunks of the loop at lines 174-196 over a project list, threading the
1-based counter `count`. -/
def projectChunks (short currentProjectExists : Bool) (currentProject : String)
    (count : Nat) : List Project → List String
  | [] => []
  | p :: rest =>
      projectChunk short currentProjectExists currentProject count p ::
        projectChunks short currentProjectExists currentProject (count + 1) rest

/-- The message-building switch of `RunProjects` (lines 155-197), branching on
the cardinality of the project list: the 0-project advisory, the 1-project
sentence, or the header plus the sorted per-project lines. -/
def formatMsg (short currentProjectExists : Bool) (currentProject commandName : String)
    (projects : List Project) : String :=
  match projects with
  | [] =>
      if !short then
        "You are not a member of any projects. You can request a project to be created with the 'new-project' command."
      else ""
  | [p] =>
      if short then p.Name
      else "You have one project on this server: " ++ (goQuote (DisplayNameAndNameForProject p) ++ ".")
  | ps =>
      (if !short then
          "You have access to the following projects and can switch between them with '" ++
            (commandName ++ " project <projectname>':\n")
        else "") ++
      String.join (projectChunks short currentProjectExists currentProject 1
        (SortByProjectName ps))

/-- The short footer form (line 211): used when the current context carries its
machine-generated nickname. -/
def usingProjectShort (project host : String) : String :=
  "\nUsing project " ++ (goQuote project ++ (" on server " ++ (goQuote host ++ ".\n")))

/-- The long footer form (line 213): also names the current context. -/
def usingProjectLong (project ctxName host : String) : String :=
  "\nUsing project " ++ (goQuote project ++ (" from context named " ++
    (goQuote ctxName ++ (" on server " ++ (goQuote host ++ ".\n")))))

/-- The forbidden-access advisory (line 203). -/
def forbiddenAdvisory (project : String) : String :=
  "You do not have rights to view project " ++ (goQuote project ++ ". Please switch to an existing one.\n")

/-- Shallow embedding of `ProjectsOptions.RunProjects` (lines 127-220). The
capabilities `ConfirmProjectAccess` and `GetProjects` (pkg/oc/cli/project) and
`GetContextNickname` (pkg/client/config) live outside src/ and enter as
parameters: `ConfirmProjectAccess` gives the access-check outcome for a
project name (`none` = accessible), `GetProjects` the enumeration result,
`GetContextNickname` the deterministic nickname of `(Namespace, Cluster,
AuthInfo)`. The result is the text written to the output streams paired with
the returned error.

At line 142 the source reads `if currentProjectErr := ConfirmProjectAccess(...)`;
the `:=` declares a new `currentProjectErr` scoped to that `if` statement,
shadowing the `currentProjectErr` declared at line 137, which therefore still
holds nil when lines 202 and 205 read it. The embedding reproduces that: the
outer `currentProjectErr` is bound to `none` and never reassigned. -/
def RunProjects (o : ProjectsOptions)
    (ConfirmProjectAccess : String → Option GoError)
    (GetProjects : Except GoError (List Project))
    (GetContextNickname : String → String → String → String) :
    String × Option GoError :=
  let currentContext := lookupCtx o.Config.Contexts o.Config.CurrentContext
  let currentProject := currentProjectOf o.Config
  let currentProjectErr : Option GoError := none
  let currentProjectExists : Bool :=
    !currentProject.isEmpty && (ConfirmProjectAccess currentProject).isNone
  let defaultContextName : String :=
    match currentContext with
    | some c => GetContextNickname c.Namespace c.Cluster c.AuthInfo
    | none => ""
  match GetProjects with
  | Except.error err => ("", some err)
  | Except.ok projects =>
      let msg := formatMsg o.DisplayShort currentProjectExists currentProject
        o.CommandName projects
      let out : String := msg ++ "\n"
      if !projects.isEmpty && !o.DisplayShort then
        if !currentProjectExists then
          let out := if IsForbidden currentProjectErr then
              out ++ forbiddenAdvisory currentProject
            else out
          (out, currentProjectErr)
        else
          if o.Config.CurrentContext == defaultContextName then
            (out ++ usingProjectShort currentProject o.Host, none)
          else
            (out ++ usingProjectLong currentProject o.Config.CurrentContext o.Host, none)
      else
        (out, none)

/-- Validate (lines 119-124): positional arguments are refused. -/
def Validate (args : List String) : Option GoError :=
  if args.length > 0 then some ⟨false, "no arguments should be passed"⟩ else none

/-- The `Run` closure of `NewCmdProjects` (lines 79-85) from validation on.
`kcmdutil.CheckErr` (not under src/) is modelled from the spec: it aborts the
invocation on a non-nil error, so a validation failure stops the command
before `RunProjects` runs and before any network call is made. -/
def runCommand (o : ProjectsOptions) (args : List String)
    (ConfirmProjectAccess : String → Option GoError)
    (GetProjects : Except GoError (List Project))
    (GetContextNickname : String → String → String → String) :
    String × Option GoError :=
  match Validate args with
  | some e => ("", some e)
  | none => RunProjects o ConfirmProjectAccess GetProjects GetContextNickname

/-- The marker column of a rendered project line: `"  * "` on the accessible
current selection, `"    "` on the other lines while an accessible current
selection exists, and empty when none does (or in short mode). -/
def markerFor (short currentProjectExists : Bool) (currentProject name : String) : String :=
  if currentProjectExists && !short then
    if currentProject == name then "  * " else "    "
  else ""

/-- C7: when project enumeration fails as a whole, RunProjects prints nothing
and returns the enumeration error unmodified. -/
theorem runProjects_enumeration_error (o : ProjectsOptions)
    (ca : String → Option GoError) (nick : String → String → String → String)
    (e : GoError) :
    RunProjects o ca (Except.error e) nick = ("", some e) := rfl

/-- C3 (amended): with an empty project set, verbose mode prints exactly the
fixed not-a-member advisory as its one output line, short mode prints a single
empty line (the newline that fmt.Println appends to the empty message), and
no error is returned. -/
theorem runProjects_empty_set (o : ProjectsOptions)
    (ca : String → Option GoError) (nick : String → String → String → String) :
    RunProjects o ca (Except.ok []) nick =
      ((if o.DisplayShort then "\n" else
        "You are not a member of any projects. You can request a project to be created with the 'new-project' command.\n"),
       none) := by
  cases h : o.DisplayShort <;>
    simp [RunProjects, formatMsg, h]

/-- C3 counterexample: with an empty project set in short mode the output is a
single newline, not the empty string the claim demands. -/
theorem runProjects_short_empty_not_nothing :
    (RunProjects ⟨⟨[], ""⟩, "h", "oc", true⟩ (fun _ => none) (Except.ok [])
      (fun _ _ _ => "")).1 = "\n" ∧ "\n" ≠ "" := by
  constructor
  · rfl
  · decide

/-- C2 (amended): in verbose mode every per-project line opens with a newline
and then its marker column: "  * " on the accessible current selection, four
spaces on the other lines while an accessible current selection exists, and
no marker at all when no selection was confirmed accessible. -/
theorem projectChunk_marker (cpe : Bool) (cp : String) (count : Nat) (p : Project) :
    ∃ rest : String,
      projectChunk false cpe cp count p = "\n" ++ (markerFor false cpe cp p.Name ++ rest) := by
  simp only [projectChunk, markerFor]
  split
  · exact ⟨p.Name ++ (" - " ++ resolveDisplayName p), rfl⟩
  · exact ⟨p.Name, rfl⟩

/-- C2 counterexample: two projects, verbose mode, no accessible current
selection: the per-project lines carry no marker column, not the four-space
prefix the claim demands. -/
theorem runProjects_no_marker_without_selection :
    (RunProjects ⟨⟨[], ""⟩, "h", "oc", false⟩ (fun _ => none)
        (Except.ok [⟨"a", []⟩, ⟨"b", []⟩]) (fun _ _ _ => "")).1 =
      "You have access to the following projects and can switch between them with 'oc project <projectname>':\n\na\nb\n" ∧
    "You have access to the following projects and can switch between them with 'oc project <projectname>':\n\na\nb\n" ≠
      "You have access to the following projects and can switch between them with 'oc project <projectname>':\n\n    a\n    b\n" := by
  constructor
  · rfl
  · decide

/-- C5 (amended): the display name rendered for a project is resolved by fixed
precedence on annotation values: the well-known key's value when that value is
non-empty, else the legacy "displayName" key's value; and a project whose
resolved display name is empty or equal to its Name, or any project in short
mode, is rendered by bare Name only (no " - DisplayName" suffix). -/
theorem projectChunk_displayName (p : Project) (short cpe : Bool) (cp : String) (count : Nat) :
    (resolveDisplayName p =
      if (lookupAnno p.Annotations OpenShiftDisplayName).isEmpty then
        lookupAnno p.Annotations "displayName"
      else lookupAnno p.Annotations OpenShiftDisplayName) ∧
    ((short = true ∨ resolveDisplayName p = "" ∨ resolveDisplayName p = p.Name) →
      projectChunk short cpe cp count p =
        (if short && count == 1 then "" else "\n") ++
          (markerFor short cpe cp p.Name ++ p.Name)) := by
  constructor
  · rfl
  · intro h
    simp only [projectChunk, markerFor]
    split
    · rename_i hcond
      exfalso
      rcases h with h | h | h
      · subst h; simp at hcond
      · rw [h] at hcond
        simp only [Bool.and_eq_true, bne_iff_ne, Bool.not_eq_eq_eq_not, Bool.not_true] at hcond
        exact absurd hcond.1.1 (by decide)
      · rw [h] at hcond
        simp only [Bool.and_eq_true, bne_iff_ne] at hcond
        exact hcond.1.2 rfl
    · rfl

/-- C5 counterexample: the well-known display-name key present with an empty
value does not win; the legacy key's value is rendered instead. -/
theorem displayName_empty_wellknown_loses :
    (Project.mk "p" [("openshift.io/display-name", ""), ("displayName", "Legacy")]).Annotations.find?
        (fun kv => kv.1 == OpenShiftDisplayName) =
      some ("openshift.io/display-name", "") ∧
    resolveDisplayName ⟨"p", [("openshift.io/display-name", ""), ("displayName", "Legacy")]⟩ = "Legacy" ∧
    resolveDisplayName ⟨"p", [("openshift.io/display-name", ""), ("displayName", "Legacy")]⟩ ≠
      lookupAnno [("openshift.io/display-name", ""), ("displayName", "Legacy")] OpenShiftDisplayName ∧
    projectChunk false false "" 1 ⟨"p", [("openshift.io/display-name", ""), ("displayName", "Legacy")]⟩ =
      "\np - Legacy" := by
  refine ⟨rfl, rfl, ?_, rfl⟩
  decide

/-- C6: a sole project named "dev" with no distinct display name renders in
verbose mode as the quoted one-project sentence and in short mode as the bare
name, each as the single line fmt.Println terminates. -/
theorem runProjects_single_dev :
    RunProjects ⟨⟨[], ""⟩, "h", "oc", false⟩ (fun _ => none)
        (Except.ok [⟨"dev", []⟩]) (fun _ _ _ => "") =
      ("You have one project on this server: \"dev\".\n", none) ∧
    RunProjects ⟨⟨[], ""⟩, "h", "oc", true⟩ (fun _ => none)
        (Except.ok [⟨"dev", []⟩]) (fun _ _ _ => "") =
      ("dev\n", none) := ⟨rfl, rfl⟩

/-- C1 (the code at the failing input): the current project resolves to
"secret", the access check classifies the failure as Forbidden, the project
list is non-empty and the mode is verbose, yet the output carries no
forbidden-access advisory and the returned error is nil: the `:=` at line 142
shadows the `currentProjectErr` declared at line 137, so lines 202-205 read
nil. -/
theorem runProjects_forbidden_no_advisory_nil_error :
    RunProjects ⟨⟨[("c1", ⟨"secret", "cl", "me"⟩)], "c1"⟩, "https://h", "oc", false⟩
        (fun _ => some ⟨true, "forbidden"⟩) (Except.ok [⟨"b", []⟩, ⟨"a", []⟩])
        (fun _ _ _ => "") =
      ("You have access to the following projects and can switch between them with 'oc project <projectname>':\n\na\nb\n",
       none) := rfl

theorem isEmpty_empty_string : "".isEmpty = true := rfl

/-- C8: any positional argument makes Validate fail, and the command halts on
that validation error: RunProjects never runs, no output is produced, and the
result does not depend on the enumeration capability (no network call). -/
theorem validate_rejects_args (o : ProjectsOptions) (args : List String)
    (ca : String → Option GoError) (gp₁ gp₂ : Except GoError (List Project))
    (nick : String → String → String → String) (h : args ≠ []) :
    (Validate args).isSome = true ∧
    runCommand o args ca gp₁ nick = ("", Validate args) ∧
    runCommand o args ca gp₁ nick = runCommand o args ca gp₂ nick := by
  have hv : Validate args = some ⟨false, "no arguments should be passed"⟩ := by
    simp [Validate, List.length_pos, h]
  refine ⟨by rw [hv]; rfl, ?_, ?_⟩ <;> simp [runCommand, hv]

/-- C8 witness at args = ["extra"]. -/
theorem validate_rejects_args_witness :
    (Validate ["extra"]).isSome = true ∧
    runCommand ⟨⟨[], ""⟩, "h", "oc", false⟩ ["extra"] (fun _ => none) (Except.ok [])
        (fun _ _ _ => "") = ("", Validate ["extra"]) ∧
    runCommand ⟨⟨[], ""⟩, "h", "oc", false⟩ ["extra"] (fun _ => none) (Except.ok [])
        (fun _ _ _ => "") =
      runCommand ⟨⟨[], ""⟩, "h", "oc", false⟩ ["extra"] (fun _ => none)
        (Except.error ⟨false, "network down"⟩) (fun _ _ _ => "") :=
  validate_rejects_args _ _ _ _ _ _ (by decide)

/-- C10: with no current project selected (no current context, or an empty
Namespace in it) and a successful non-empty enumeration, verbose RunProjects
prints the formatted list alone — no footer, no advisory — and returns nil;
the access-check capability is never consulted (ca is arbitrary). -/
theorem runProjects_no_selection (o : ProjectsOptions) (ca : String → Option GoError)
    (nick : String → String → String → String) (ps : List Project)
    (hverbose : o.DisplayShort = false)
    (hcp : currentProjectOf o.Config = "")
    (hne : ps.isEmpty = false) :
    RunProjects o ca (Except.ok ps) nick =
      (formatMsg false false "" o.CommandName ps ++ "\n", none) := by
  simp [RunProjects, hcp, hverbose, hne, isEmpty_empty_string, IsForbidden]

/-- C10 witness: two projects, no kubeconfig context, an access checker that
would report Forbidden if it were ever called. -/
theorem runProjects_no_selection_witness :
    RunProjects ⟨⟨[], ""⟩, "h", "oc", false⟩ (fun _ => some ⟨true, "forbidden"⟩)
        (Except.ok [⟨"a", []⟩, ⟨"b", []⟩]) (fun _ _ _ => "") =
      (formatMsg false false "" "oc" [⟨"a", []⟩, ⟨"b", []⟩] ++ "\n", none) :=
  runProjects_no_selection _ _ _ _ rfl rfl rfl

/-- C9: verbose mode, non-empty project set, current project confirmed
accessible: the footer naming the current project and the server host is
appended, in the short form exactly when the stored current-context name
equals the nickname computed from (Namespace, Cluster, AuthInfo), and in the
long form naming the context otherwise. -/
theorem runProjects_footer (o : ProjectsOptions) (ca : String → Option GoError)
    (nick : String → String → String → String) (ps : List Project) (ctx : KubeContext)
    (hverbose : o.DisplayShort = false)
    (hctx : lookupCtx o.Config.Contexts o.Config.CurrentContext = some ctx)
    (hns : ctx.Namespace.isEmpty = false)
    (hacc : ca ctx.Namespace = none)
    (hne : ps.isEmpty = false) :
    RunProjects o ca (Except.ok ps) nick =
      (formatMsg false true ctx.Namespace o.CommandName ps ++ "\n" ++
        (if o.Config.CurrentContext == nick ctx.Namespace ctx.Cluster ctx.AuthInfo then
          usingProjectShort ctx.Namespace o.Host
        else
          usingProjectLong ctx.Namespace o.Config.CurrentContext o.Host),
       none) := by
  simp [RunProjects, currentProjectOf, hctx, hverbose, hns, hacc, hne]
  split <;> rfl

/-- C9 witness: a user-named context "c1" whose nickname differs, hence the
long footer form. -/
theorem runProjects_footer_witness :
    RunProjects ⟨⟨[("c1", ⟨"dev", "cl", "me"⟩)], "c1"⟩, "https://h", "oc", false⟩
        (fun _ => none) (Except.ok [⟨"dev", []⟩, ⟨"qa", []⟩])
        (fun n c a => ((n ++ "/") ++ c ++ "/") ++ a) =
      (formatMsg false true "dev" "oc" [⟨"dev", []⟩, ⟨"qa", []⟩] ++ "\n" ++
        (if "c1" == ((("dev" ++ "/") ++ "cl" ++ "/") ++ "me") then
          usingProjectShort "dev" "https://h"
        else
          usingProjectLong "dev" "c1" "https://h"),
       none) :=
  runProjects_footer _ _ _ _ ⟨"dev", "cl", "me"⟩ rfl rfl rfl rfl rfl

theorem lexLt_asymm : ∀ x y : List Char, lexLt x y = true → lexLt y x = true → False := by
  intro x
  induction x with
  | nil =>
    intro y h1 h2
    cases y with
    | nil => simp [lexLt] at h1
    | cons b bs => simp [lexLt] at h2
  | cons a as ih =>
    intro y h1 h2
    cases y with
    | nil => simp [lexLt] at h1
    | cons b bs =>
      simp only [lexLt, Bool.or_eq_true, Bool.and_eq_true, decide_eq_true_eq,
        beq_iff_eq] at h1 h2
      rcases h1 with h1 | ⟨hab, h1⟩
      · rcases h2 with h2 | ⟨hba, h2⟩
        · exact lt_asymm h1 h2
        · subst hba; exact lt_irrefl _ h1
      · rcases h2 with h2 | ⟨hba, h2⟩
        · subst hab; exact lt_irrefl _ h2
        · exact ih bs h1 h2

theorem lexLt_trans : ∀ x y z : List Char,
    lexLt x y = true → lexLt y z = true → lexLt x z = true := by
  intro x
  induction x with
  | nil =>
    intro y z h1 h2
    cases z with
    | nil =>
      cases y with
      | nil => simp [lexLt] at h1
      | cons b bs => simp [lexLt] at h2
    | cons c cs => simp [lexLt]
  | cons a as ih =>
    intro y z h1 h2
    cases y with
    | nil => simp [lexLt] at h1
    | cons b bs =>
      cases z with
      | nil => simp [lexLt] at h2
      | cons c cs =>
        simp only [lexLt, Bool.or_eq_true, Bool.and_eq_true, decide_eq_true_eq,
          beq_iff_eq] at h1 h2 ⊢
        rcases h1 with h1 | ⟨hab, h1⟩
        · rcases h2 with h2 | ⟨hbc, h2⟩
          · exact Or.inl (lt_trans h1 h2)
          · subst hbc; exact Or.inl h1
        · rcases h2 with h2 | ⟨hbc, h2⟩
          · subst hab; exact Or.inl h2
          · subst hab; subst hbc; exact Or.inr ⟨rfl, ih bs cs h1 h2⟩

theorem lexLt_total : ∀ x y : List Char, lexLt x y = true ∨ x = y ∨ lexLt y x = true := by
  intro x
  induction x with
  | nil =>
    intro y
    cases y with
    | nil => exact Or.inr (Or.inl rfl)
    | cons b bs => exact Or.inl (by simp [lexLt])
  | cons a as ih =>
    intro y
    cases y with
    | nil => exact Or.inr (Or.inr (by simp [lexLt]))
    | cons b bs =>
      rcases lt_trichotomy a b with h | h | h
      · exact Or.inl (by simp [lexLt, h])
      · subst h
        rcases ih bs with h' | h' | h'
        · exact Or.inl (by simp [lexLt, h'])
        · exact Or.inr (Or.inl (by rw [h']))
        · exact Or.inr (Or.inr (by simp [lexLt, h']))
      · exact Or.inr (Or.inr (by simp [lexLt, h]))

theorem string_eq_of_data_eq {s t : String} (h : s.data = t.data) : s = t := by
  cases s; cases t; exact congrArg String.mk h

theorem goStringLe_total (s t : String) : goStringLe s t = true ∨ goStringLe t s = true := by
  rcases lexLt_total s.data t.data with h | h | h
  · exact Or.inl (by simp [goStringLe, goStringLt, h])
  · exact Or.inl (by simp [goStringLe, goStringLt, string_eq_of_data_eq h])
  · exact Or.inr (by simp [goStringLe, goStringLt, h])

theorem goStringLe_trans (s t u : String)
    (h1 : goStringLe s t = true) (h2 : goStringLe t u = true) : goStringLe s u = true := by
  simp only [goStringLe, goStringLt, Bool.or_eq_true, beq_iff_eq] at h1 h2 ⊢
  rcases h1 with h1 | h1
  · rcases h2 with h2 | h2
    · exact Or.inl (lexLt_trans _ _ _ h1 h2)
    · subst h2; exact Or.inl h1
  · subst h1
    exact h2

theorem goStringLt_of_le_of_ne {s t : String}
    (h : goStringLe s t = true) (hne : s ≠ t) : goStringLt s t = true := by
  simp only [goStringLe, Bool.or_eq_true, beq_iff_eq] at h
  rcases h with h | h
  · exact h
  · exact absurd h hne

theorem sortByProjectName_strict (rs : List Project)
    (hnd : (rs.map Project.Name).Nodup) :
    List.Pairwise (fun a b => goStringLt a.Name b.Name = true) (SortByProjectName rs) := by
  haveI : IsTotal Project (fun a b => goStringLe a.Name b.Name = true) :=
    ⟨fun a b => goStringLe_total _ _⟩
  haveI : IsTrans Project (fun a b => goStringLe a.Name b.Name = true) :=
    ⟨fun a b c => goStringLe_trans _ _ _⟩
  have hs : List.Pairwise (fun a b => goStringLe a.Name b.Name = true) (SortByProjectName rs) :=
    List.sorted_insertionSort _ rs
  have hp : (SortByProjectName rs).Perm rs := List.perm_insertionSort _ rs
  have hnd' : ((SortByProjectName rs).map Project.Name).Nodup :=
    ((hp.map Project.Name).nodup_iff).mpr hnd
  have hne : List.Pairwise (fun a b => a.Name ≠ b.Name) (SortByProjectName rs) :=
    List.pairwise_map.mp hnd'
  exact (hs.and hne).imp fun h => goStringLt_of_le_of_ne h.1 h.2

/-- C4: for any project list with at least two entries and unique names, the
rendering order SortByProjectName produces is strictly ascending in Name
(Go's lexicographic string order), and each permutation of the input sorts to
the same sequence. -/
theorem sortByProjectName_strict_perm_invariant (ps qs : List Project)
    (_hlen : 2 ≤ ps.length) (hnodup : (ps.map Project.Name).Nodup)
    (hperm : ps.Perm qs) :
    (SortByProjectName ps).Pairwise (fun a b => goStringLt a.Name b.Name = true) ∧
    SortByProjectName ps = SortByProjectName qs := by
  haveI : IsAntisymm Project (fun a b => goStringLt a.Name b.Name = true) :=
    ⟨fun a b h1 h2 => (lexLt_asymm _ _ h1 h2).elim⟩
  have hndq : (qs.map Project.Name).Nodup := ((hperm.map Project.Name).nodup_iff).mp hnodup
  have hp2 : (SortByProjectName ps).Perm (SortByProjectName qs) :=
    (List.perm_insertionSort _ ps).trans (hperm.trans (List.perm_insertionSort _ qs).symm)
  exact ⟨sortByProjectName_strict ps hnodup,
    List.eq_of_perm_of_sorted hp2 (sortByProjectName_strict ps hnodup)
      (sortByProjectName_strict qs hndq)⟩

/-- C4 witness: the spec's N=3 example, names c, a, b against a, b, c. -/
theorem sortByProjectName_witness :
    (SortByProjectName [⟨"c", []⟩, ⟨"a", []⟩, ⟨"b", []⟩]).Pairwise
      (fun a b => goStringLt a.Name b.Name = true) ∧
    SortByProjectName [⟨"c", []⟩, ⟨"a", []⟩, ⟨"b", []⟩] =
      SortByProjectName [⟨"a", []⟩, ⟨"b", []⟩, ⟨"c", []⟩] :=
  sortByProjectName_strict_perm_invariant _ _ (by decide) (by decide) (by decide)

/-- C5 witness: both annotation keys present with non-empty values: the
well-known key's value is the resolved display name; in short mode the project
renders as its bare name. -/
theorem projectChunk_displayName_witness :
    resolveDisplayName ⟨"dev", [("openshift.io/display-name", "Dev Project"), ("displayName", "Old")]⟩ =
      "Dev Project" ∧
    projectChunk true false "" 1
        ⟨"dev", [("openshift.io/display-name", "Dev Project"), ("displayName", "Old")]⟩ =
      "dev" := by
  have h := projectChunk_displayName
    ⟨"dev", [("openshift.io/display-name", "Dev Project"), ("displayName", "Old")]⟩
    true false "" 1
  exact ⟨by rw [h.1]; decide, by rw [h.2 (Or.inl rfl)]; decide⟩
